import Mathlib

/-!
Verification of the release-orchestration script (`scripts/release.py`).

The script's core is a release-notes pipeline built from three text
operations (changelog-section extraction, comparison-link parsing, notes
composition), an escaping step, a fail-soft remote fetch, a human
verification gate, and a `main` orchestrator.  Strings are modelled as
`List Char` (`String.data`); the two regular expressions of the source are
modelled by explicit leftmost-match searches that mirror Python `re.search`
semantics, including greedy/lazy backtracking, `re.DOTALL`, and the
behaviour of `$` without `re.MULTILINE`.
-/

namespace Release

/-- Leftmost-match search: try the matcher `m` at positions `i`, `i+1`, ...
(`fuel` positions in total) and return the first result.  This is the
engine shared by both regex models, mirroring how `re.search` scans start
positions left to right. -/
def searchMatch {α : Type} (m : Nat → Option α) : Nat → Nat → Option α
  | 0, _ => none
  | fuel + 1, i =>
    match m i with
    | some r => some r
    | none => searchMatch m fuel (i + 1)

/-- `occursAt L s i` holds when the pattern `L` occurs in `s` starting at
position `i` (i.e. `L` is a prefix of `s.drop i`). -/
def occursAt (L s : List Char) (i : Nat) : Bool :=
  L.isPrefixOf (s.drop i)

/-- The literal `"## "` that introduces a changelog heading
(`scripts/release.py`, line 115). -/
def hh : List Char := ('#' :: '#' :: ' ' :: [])

/-- The literal `"**Full Changelog**: "` matched by the escaped regex
`\*\*Full Changelog\*\*: ` (`scripts/release.py`, line 93). -/
def fcLit : List Char := ("**Full Changelog**: ").data

/-- ASCII whitespace recognised by Python `str.strip()` with no
arguments (the non-ASCII whitespace code points are irrelevant here). -/
def pyIsSpace (c : Char) : Bool :=
  c == ' ' || c == '\t' || c == '\n' || c == '\r' || c == '\x0b' || c == '\x0c'

/-- Python `str.strip()`: remove leading and trailing whitespace. -/
def pyStrip (s : List Char) : List Char :=
  ((s.dropWhile pyIsSpace).reverse.dropWhile pyIsSpace).reverse

/-- One attempt of the pattern `\*\*Full Changelog\*\*: (.*)$` (no
`re.MULTILINE`, no `re.DOTALL`) at start position `i` of `body`
(`scripts/release.py`, line 93).  After the literal, the greedy `(.*)`
takes the run of non-newline characters; `$` then only matches at the end
of the string or just before a terminating final newline, so the attempt
succeeds exactly when nothing (or a single final newline) remains after
the run.  Backtracking `(.*)` cannot help: any shorter capture leaves the
engine before a non-newline character, where `$` cannot match either. -/
def urlMatchAt (body : List Char) (i : Nat) : Option (List Char) :=
  if fcLit.isPrefixOf (body.drop i) then
    let t := body.drop (i + fcLit.length)
    let run := t.takeWhile (fun c => c != '\n')
    let rest := t.dropWhile (fun c => c != '\n')
    if rest = [] ∨ rest = ['\n'] then some run else none
  else none

/-- `get_release_notes_url` (`scripts/release.py`, lines 91-102): search
the body for the `**Full Changelog**` pattern; on a match return the
captured group (and `true`), otherwise print a warning and return the
empty string (modelled as `false`). -/
def get_release_notes_url (body : List Char) : List Char × Bool :=
  match searchMatch (urlMatchAt body) (body.length + 1) 0 with
  | some u => (u, true)
  | none => ([], false)

/-- One attempt of the pattern
`## {re.escape(version_number)}[^\n]*(.*?)## ` with `re.DOTALL`
(`scripts/release.py`, line 115) at start position `i` of `doc`.
`re.escape` makes the version a literal, so the heading prefix is the
literal `"## " ++ v`.  The greedy `[^\n]*` first consumes the maximal
non-newline run (length `r`); the lazy `(.*?)` then looks for the
earliest following `"## "` at a position `m ≥ r`, capturing `t[r:m]`.
If no `"## "` occurs at or beyond `r`, Python backtracks `[^\n]*` one
character at a time; at each shorter length `k` the only undiscarded
terminator position is `k` itself, so the attempt succeeds (with an empty
capture) exactly when `"## "` occurs at some position `m < r`.
`headingFindFrom` is the search for the earliest `"## "` terminator at a
position in `[start, start + fuel)` of `t`; `clMatchAt` is the attempt
itself. -/
def headingFindFrom (t : List Char) (fuel start : Nat) : Option Nat :=
  searchMatch (fun m => if hh.isPrefixOf (t.drop m) then some m else none) fuel start

/-- The per-position attempt of the changelog-section pattern; see the
comment on `headingFindFrom`. -/
def clMatchAt (v doc : List Char) (i : Nat) : Option (List Char) :=
  let p := hh ++ v
  if p.isPrefixOf (doc.drop i) then
    let t := doc.drop (i + p.length)
    let r := (t.takeWhile (fun c => c != '\n')).length
    match headingFindFrom t (t.length + 1 - r) r with
    | some m => some ((t.drop r).take (m - r))
    | none =>
      match headingFindFrom t r 0 with
      | some _ => some ([] : List Char)
      | none => none
  else none

/-- Prefix of the warning printed when no changelog section matches
(`scripts/release.py`, line 121). -/
def changelogWarnPre : List Char :=
  ("WARNING: Failed to parse changelog release notes. Manually copy this version's notes from the CHANGELOG.md file to ").data

/-- The full warning message of `scripts/release.py`, line 121: the
f-string interpolates `release_notes_url` and ends with a period. -/
def changelogWarnMsg (release_notes_url : List Char) : List Char :=
  changelogWarnPre ++ release_notes_url ++ ('.' :: [])

/-- `get_changelog_release_notes` (`scripts/release.py`, lines 105-124):
search the changelog text for the version's section.  On a match, return
the captured group stripped of whitespace (`found = true`, no warning);
otherwise return the empty string (`found = false`) together with the
warning that names the release-notes URL.  The changelog text is passed
as an argument in place of the `CHANGELOG.md` file read. -/
def get_changelog_release_notes (release_notes_url version_number changelog_text : List Char) :
    (List Char × Bool) × Option (List Char) :=
  match searchMatch (clMatchAt version_number changelog_text) (changelog_text.length + 1) 0 with
  | some g => ((pyStrip g, true), none)
  | none => (([], false), some (changelogWarnMsg release_notes_url))

/-- `create_release_notes_body` (`scripts/release.py`, lines 127-135):
the pure composition `changelog_notes + "\n\n**Full Changelog**: " +
release_notes_url`.  The two fetched values are passed as arguments in
place of the effectful calls that produce them. -/
def create_release_notes_body (changelog_notes release_notes_url : List Char) : List Char :=
  changelog_notes ++ ("\n\n**Full Changelog**: ").data ++ release_notes_url

/-- The escaping step `release_body.replace("\n", "\\n")` of
`create_github_release_draft` (`scripts/release.py`, line 141); since the
needle is the single character `'\n'`, `str.replace` rewrites each
newline to the two-character sequence backslash, `n`. -/
def escapeNewlines : List Char → List Char
  | [] => []
  | c :: cs => (if c = '\n' then ('\\' :: 'n' :: []) else (c :: [])) ++ escapeNewlines cs

/-- Parsed JSON of the generate-notes response
(`scripts/release.py`, lines 80-81).  A successful generation returns an
object with a `body` field; the API's error payloads (HTTP non-success
responses, which `curl` reports with exit status 0) are JSON objects
without a `body` field; stdout may also fail to parse as JSON at all. -/
inductive GithubResponse where
  | withBody (body : List Char)
  | withoutBody
  | malformed
deriving DecidableEq

/-- Outcome of `subprocess.run(command, check=True, capture_output=True)`
for the `curl` invocation (`scripts/release.py`, line 79):
`calledProcessError` models a non-zero exit status (transport failure),
`completed` a zero exit status with the given stdout. -/
inductive SubprocessOutcome where
  | calledProcessError
  | completed (resp : GithubResponse)
deriving DecidableEq

/-- Python exceptions that can escape `generate_github_release_notes_body`:
`parsed_json["body"]` raises `KeyError` when the field is missing and
`json.loads` raises a decode error on non-JSON stdout; neither is a
`subprocess.CalledProcessError`, so neither is caught. -/
inductive PyExn where
  | keyError
  | jsonDecodeError
deriving DecidableEq

/-- `generate_github_release_notes_body` (`scripts/release.py`,
lines 61-88): the `try` block runs `curl`, parses stdout as JSON and
returns the `body` field; only `subprocess.CalledProcessError` is caught
(warning plus empty string, modelled as the Bool `true`).  The result is
`Except.error` exactly on the uncaught exception paths. -/
def generate_github_release_notes_body :
    SubprocessOutcome → Except PyExn (List Char × Bool)
  | SubprocessOutcome.calledProcessError => Except.ok ([], true)
  | SubprocessOutcome.completed (GithubResponse.withBody b) => Except.ok (b, false)
  | SubprocessOutcome.completed GithubResponse.withoutBody => Except.error PyExn.keyError
  | SubprocessOutcome.completed GithubResponse.malformed => Except.error PyExn.jsonDecodeError

/-- What `verify_build` (`scripts/release.py`, lines 41-58) did:
whether the wrong-artifact-count warning was printed, whether the build
was uploaded, whether tags were pushed, and whether the final
`raise Exception(...)` fired. -/
structure VerifyOutcome where
  warned : Bool
  uploaded : Bool
  pushed : Bool
  raised : Bool
deriving DecidableEq

/-- `verify_build` (`scripts/release.py`, lines 41-58): warn when the
dist folder does not hold exactly two files (without blocking), then
upload and push exactly when the operator's answer is the string `"y"`;
any other answer raises.  The folder listing and the interactive answer
are passed as arguments in place of `os.listdir` and `input`. -/
def verify_build (distCount : Nat) (confirmation : List Char) : VerifyOutcome :=
  let warned := distCount != 2
  if confirmation = ('y' :: []) then
    { warned := warned, uploaded := true, pushed := true, raised := false }
  else
    { warned := warned, uploaded := false, pushed := false, raised := true }

/-- Observable steps of `main` (`scripts/release.py`, lines 187-210),
coarse-grained: console output, process exit, input-stream exhaustion,
and the external git/build/upload/network operations. -/
inductive Action where
  | printMsg (msg : List Char)
  | exitCode (code : Nat)
  | eofError
  | gitTag (version : List Char)
  | rmDist
  | runBuild
  | runLs
  | runTar (file : List Char)
  | uploadPypi (test : List Char)
  | pushTags
  | raiseVerify
  | createDraft (version : List Char)
deriving DecidableEq

/-- The git, build, and network operations of the pipeline; console
output, exiting, and raising are not external operations. -/
def isExternalOp : Action → Bool
  | Action.gitTag _ => true
  | Action.rmDist => true
  | Action.runBuild => true
  | Action.runLs => true
  | Action.runTar _ => true
  | Action.uploadPypi _ => true
  | Action.pushTags => true
  | Action.createDraft _ => true
  | _ => false

/-- Console text of `scripts/release.py`, line 191. -/
def startingMsg : List Char := ("Starting the release process...").data

/-- Console text of `scripts/release.py`, line 192. -/
def checkingMsg : List Char := ("Checking for github token environment variable...").data

/-- Console text of `scripts/release.py`, line 194. -/
def tokenMissingMsg : List Char := ("GITHUB_TOKEN environment variable not set.").data

/-- Console text of `scripts/release.py`, line 197. -/
def tokenOkMsg : List Char := ("GITHUB_TOKEN environment variable is good to go.").data

/-- Console text of `scripts/release.py`, lines 44-46. -/
def distCountWarnMsg : List Char :=
  ("WARNING: dist folder contains incorrect number of files.").data

/-- The `is_test` prompt loop (`scripts/release.py`, lines 199-202):
consume answers until one is exactly `"y"` or `"n"`, printing the
invalid-input message for each rejected answer; `none` when the input
stream is exhausted (Python would raise `EOFError`). -/
def askIsTest : List (List Char) → List Action × Option (List Char × List (List Char))
  | [] => ([], none)
  | a :: rest =>
    if a = ('y' :: []) ∨ a = ('n' :: []) then ([], some (a, rest))
    else
      let (acts, r) := askIsTest rest
      (Action.printMsg (("Invalid input. Please enter 'y' or 'n'.").data) :: acts, r)

/-- Trace of `main` (`scripts/release.py`, lines 187-210).  The
environment variable is `none` when absent; `inputs` is the stream of
interactive answers (test-release answer(s), then the version, then the
build confirmation); `distFiles` is the dist folder listing.  Subprocess
invocations are modelled as succeeding; a failure of the final
`raise Exception` path ends the trace, as the exception propagates out
of `main`. -/
def mainTrace (github_token : Option (List Char)) (inputs : List (List Char))
    (distFiles : List (List Char)) : List Action :=
  Action.printMsg startingMsg :: Action.printMsg checkingMsg ::
    (if github_token = none ∨ github_token = some [] then
      (Action.printMsg tokenMissingMsg :: Action.exitCode 1 :: [])
    else
      Action.printMsg tokenOkMsg ::
        (match askIsTest inputs with
        | (acts, none) => acts ++ (Action.eofError :: [])
        | (acts, some (is_test, rest1)) =>
          acts ++
            (match rest1 with
            | [] => Action.eofError :: []
            | version_number :: rest2 =>
              Action.gitTag version_number :: Action.rmDist :: Action.runBuild ::
                ((if distFiles.length ≠ 2 then (Action.printMsg distCountWarnMsg :: []) else []) ++
                  (Action.printMsg (("Contents of dist folder:").data) :: Action.runLs ::
                    Action.printMsg (("Contents of tar files in dist folder:").data) ::
                    distFiles.map Action.runTar) ++
                  (match rest2 with
                  | [] => Action.eofError :: []
                  | confirmation :: _ =>
                    if confirmation = ('y' :: []) then
                      Action.printMsg (("Build verified successfully.").data) ::
                        Action.uploadPypi is_test :: Action.pushTags ::
                        Action.createDraft version_number :: []
                    else
                      Action.raiseVerify :: [])))))

/-! ### Specification lemmas for the leftmost-match search -/

theorem searchMatch_spec {α : Type} (m : Nat → Option α) :
    ∀ (fuel start : Nat) (r : α), searchMatch m fuel start = some r →
      ∃ i, start ≤ i ∧ m i = some r := by
  intro fuel
  induction fuel with
  | zero => intro start r h; simp [searchMatch] at h
  | succ n ih =>
    intro start r h
    cases hm : m start with
    | some v =>
      simp [searchMatch, hm] at h
      exact ⟨start, Nat.le_refl _, by rw [hm, h]⟩
    | none =>
      simp [searchMatch, hm] at h
      obtain ⟨i, hi, hmi⟩ := ih (start + 1) r h
      exact ⟨i, Nat.le_trans (Nat.le_succ _) hi, hmi⟩

theorem searchMatch_eq_some {α : Type} (m : Nat → Option α) :
    ∀ (fuel start i : Nat) (r : α), start ≤ i → i < start + fuel → m i = some r →
      (∀ j, start ≤ j → j < i → m j = none) → searchMatch m fuel start = some r := by
  intro fuel
  induction fuel with
  | zero => intro start i r h1 h2 _ _; omega
  | succ n ih =>
    intro start i r h1 h2 hm hnone
    by_cases hst : i = start
    · subst hst; simp [searchMatch, hm]
    · have hgt : start < i := Nat.lt_of_le_of_ne h1 (fun h => hst h.symm)
      have h0 : m start = none := hnone start (Nat.le_refl _) hgt
      simp only [searchMatch, h0]
      exact ih (start + 1) i r hgt (by omega) hm (fun j hj1 hj2 => hnone j (by omega) hj2)

theorem searchMatch_eq_none {α : Type} (m : Nat → Option α) :
    ∀ (fuel start : Nat), (∀ j, start ≤ j → j < start + fuel → m j = none) →
      searchMatch m fuel start = none := by
  intro fuel
  induction fuel with
  | zero => intro start _; rfl
  | succ n ih =>
    intro start h
    have h0 : m start = none := h start (Nat.le_refl _) (by omega)
    simp only [searchMatch, h0]
    exact ih (start + 1) (fun j hj1 hj2 => h j (by omega) (by omega))

/-! ### Occurrence lemmas -/

theorem isPrefixOf_append_self : ∀ (L t : List Char), L.isPrefixOf (L ++ t) = true := by
  intro L t
  induction L with
  | nil => simp
  | cons a as ih => simp [List.isPrefixOf, ih]

theorem eq_append_of_isPrefixOf : ∀ {L s : List Char}, L.isPrefixOf s = true →
    ∃ t, s = L ++ t := by
  intro L
  induction L with
  | nil => intro s _; exact ⟨s, rfl⟩
  | cons a as ih =>
    intro s h
    cases s with
    | nil => simp [List.isPrefixOf] at h
    | cons b bs =>
      simp only [List.isPrefixOf, Bool.and_eq_true, beq_iff_eq] at h
      obtain ⟨t, ht⟩ := ih h.2
      exact ⟨t, by rw [h.1, ht]; rfl⟩

theorem isPrefixOf_of_append_le : ∀ {L a : List Char} (b : List Char),
    L.isPrefixOf (a ++ b) = true → L.length ≤ a.length → L.isPrefixOf a = true := by
  intro L
  induction L with
  | nil => intro a b _ _; simp
  | cons c cs ih =>
    intro a b h hle
    cases a with
    | nil => simp at hle
    | cons d ds =>
      simp only [List.cons_append, List.isPrefixOf, Bool.and_eq_true] at h ⊢
      exact ⟨h.1, ih b h.2 (by simpa using hle)⟩

/-- If `L` occurs at `i` inside `s ++ z` and the occurrence fits entirely
inside `s`, then `L` occurs at `i` inside `s`. -/
theorem occursAt_append_left {L s z : List Char} {i : Nat}
    (h : occursAt L (s ++ z) i = true) (hle : i + L.length ≤ s.length) :
    occursAt L s i = true := by
  unfold occursAt at h ⊢
  rw [List.drop_append_eq_append_drop] at h
  exact isPrefixOf_of_append_le _ h (by rw [List.length_drop]; omega)

/-- An occurrence of `L` at `i` pins down the characters of `s`
position by position. -/
theorem occursAt_getElem {L s : List Char} {i j : Nat}
    (h : occursAt L s i = true) (hj : j < L.length) : s[i + j]? = L[j]? := by
  unfold occursAt at h
  obtain ⟨t, ht⟩ := eq_append_of_isPrefixOf h
  rw [← List.getElem?_drop, ht, List.getElem?_append_left hj]

/-- A nonempty pattern never occurs at or beyond the end of the text. -/
theorem occursAt_cons_false_of_le {c : Char} {L s : List Char} {i : Nat}
    (h : s.length ≤ i) : occursAt (c :: L) s i = false := by
  unfold occursAt
  rw [List.drop_eq_nil_of_le h]
  rfl

/-! ### Comparison-link parsing -/

theorem nl_not_mem_fcLit : '\n' ∉ fcLit := by decide

/-- At the position of the `**Full Changelog**: ` literal, the pattern
attempt succeeds and captures the url, provided the url reaches the end
of the body (up to one trailing newline). -/
theorem urlMatchAt_at_literal (p u tl : List Char)
    (htl : tl = [] ∨ tl = ('\n' :: []))
    (hu : '\n' ∉ u) :
    urlMatchAt (p ++ (fcLit ++ (u ++ tl))) p.length = some u := by
  have h1 : (p ++ (fcLit ++ (u ++ tl))).drop p.length = fcLit ++ (u ++ tl) :=
    List.drop_left p _
  have h2 : (p ++ (fcLit ++ (u ++ tl))).drop (p.length + fcLit.length) = u ++ tl := by
    rw [← List.append_assoc, ← List.length_append p fcLit]
    exact List.drop_left _ _
  have hposu : ∀ a ∈ u, (a != '\n') = true := by
    intro a ha
    simp only [bne_iff_ne]
    intro hEq
    exact hu (hEq ▸ ha)
  simp only [urlMatchAt, h1, h2, isPrefixOf_append_self, if_true,
    List.takeWhile_append_of_pos hposu, List.dropWhile_append_of_pos hposu]
  rcases htl with rfl | rfl
  · simp
  · simp [List.takeWhile, List.dropWhile]

/-- Leftmost-match behaviour of `get_release_notes_url`: if the literal
does not occur before position `p.length`, the search returns the
capture of the attempt at `p.length`. -/
theorem get_release_notes_url_of_final_line (p u tl : List Char)
    (htl : tl = [] ∨ tl = ('\n' :: []))
    (hp : ∀ i, i < p.length → occursAt fcLit (p ++ (fcLit ++ (u ++ tl))) i = false)
    (hu : '\n' ∉ u) :
    get_release_notes_url (p ++ (fcLit ++ (u ++ tl))) = (u, true) := by
  have hmatch := urlMatchAt_at_literal p u tl htl hu
  have hnone : ∀ j, 0 ≤ j → j < p.length →
      urlMatchAt (p ++ (fcLit ++ (u ++ tl))) j = none := by
    intro j _ hj
    have hocc := hp j hj
    unfold occursAt at hocc
    simp [urlMatchAt, hocc]
  have hsm := searchMatch_eq_some (urlMatchAt (p ++ (fcLit ++ (u ++ tl))))
      ((p ++ (fcLit ++ (u ++ tl))).length + 1) 0 p.length u (Nat.zero_le _)
      (by simp only [List.length_append]; omega) hmatch hnone
  unfold get_release_notes_url
  rw [hsm]

/-- The separator literal of the composer splits as two newlines followed
by the `**Full Changelog**: ` label. -/
theorem sepLit_eq : ("\n\n**Full Changelog**: ").data = '\n' :: '\n' :: fcLit := rfl

/-- In a composed body `s ++ "\n\n" ++ fcLit ++ u`, the label cannot
occur strictly before its designated position: an occurrence inside `s`
is excluded by hypothesis, and an occurrence overlapping the separator
would put a newline inside the newline-free label. -/
theorem no_fcLit_before_label (s u : List Char)
    (hs : ∀ i, i < s.length → occursAt fcLit s i = false) :
    ∀ i, i < (s ++ ('\n' :: '\n' :: [])).length →
      occursAt fcLit ((s ++ ('\n' :: '\n' :: [])) ++ (fcLit ++ (u ++ []))) i = false := by
  intro i hi
  have hbody2 : (s ++ ('\n' :: '\n' :: [])) ++ (fcLit ++ (u ++ [])) =
      s ++ ('\n' :: '\n' :: (fcLit ++ (u ++ []))) := by
    simp [List.append_assoc]
  have hi2 : i < s.length + 2 := by simpa using hi
  cases hx : occursAt fcLit ((s ++ ('\n' :: '\n' :: [])) ++ (fcLit ++ (u ++ []))) i
  · rfl
  exfalso
  rw [hbody2] at hx
  by_cases hle : i + fcLit.length ≤ s.length
  · have h2 : occursAt fcLit s i = true := occursAt_append_left hx hle
    have hlen : 0 < fcLit.length := by decide
    have h3 : occursAt fcLit s i = false := hs i (by omega)
    rw [h3] at h2
    simp at h2
  · push_neg at hle
    by_cases hi3 : i ≤ s.length
    · have hj : s.length - i < fcLit.length := by omega
      have hEq := occursAt_getElem hx hj
      have hij : i + (s.length - i) = s.length := by omega
      have hbs : (s ++ ('\n' :: '\n' :: (fcLit ++ (u ++ []))))[s.length]? = some '\n' := by
        rw [List.getElem?_append_right (Nat.le_refl _)]
        simp
      rw [hij, hbs] at hEq
      exact nl_not_mem_fcLit (List.getElem?_mem hEq.symm)
    · have hieq : i = s.length + 1 := by omega
      have hlen : 0 < fcLit.length := by decide
      have hEq := occursAt_getElem hx hlen
      have hbs : (s ++ ('\n' :: '\n' :: (fcLit ++ (u ++ []))))[s.length + 1]? = some '\n' := by
        rw [List.getElem?_append_right (by omega)]
        simp
      rw [Nat.add_zero, hieq, hbs] at hEq
      exact nl_not_mem_fcLit (List.getElem?_mem hEq.symm)

/-! ### Changelog-section extraction -/

theorem headingFindFrom_spec {t : List Char} {fuel start m : Nat}
    (h : headingFindFrom t fuel start = some m) :
    start ≤ m ∧ hh.isPrefixOf (t.drop m) = true := by
  obtain ⟨k, hk, hfk⟩ := searchMatch_spec _ fuel start m h
  cases hp : hh.isPrefixOf (t.drop k) with
  | false => simp [hp] at hfk
  | true =>
    simp only [hp, if_true] at hfk
    obtain rfl : k = m := Option.some.inj hfk
    exact ⟨hk, hp⟩

/-- A successful attempt of the changelog pattern at position `i`
requires the literal heading prefix `"## " ++ v` at `i` and a further
`"## "` marker at or after the end of that prefix. -/
theorem clMatchAt_occurs {v doc : List Char} {i : Nat} {g : List Char}
    (h : clMatchAt v doc i = some g) :
    occursAt (hh ++ v) doc i = true ∧
      ∃ m, i + (hh ++ v).length ≤ m ∧ occursAt hh doc m = true := by
  cases hp : (hh ++ v).isPrefixOf (doc.drop i) with
  | false => simp [clMatchAt, hp] at h
  | true =>
    refine ⟨hp, ?_⟩
    simp only [clMatchAt, hp, if_true] at h
    set t := doc.drop (i + (hh ++ v).length) with ht
    set r := (t.takeWhile (fun c => c != '\n')).length with hr
    have hdrop : ∀ m : Nat, t.drop m = doc.drop (i + (hh ++ v).length + m) := by
      intro m
      rw [ht, List.drop_drop]
    cases h1 : headingFindFrom t (t.length + 1 - r) r with
    | some m =>
      obtain ⟨-, hpre⟩ := headingFindFrom_spec h1
      refine ⟨i + (hh ++ v).length + m, by omega, ?_⟩
      unfold occursAt
      rw [← hdrop m]
      exact hpre
    | none =>
      rw [h1] at h
      cases h2 : headingFindFrom t r 0 with
      | some m =>
        obtain ⟨-, hpre⟩ := headingFindFrom_spec h2
        refine ⟨i + (hh ++ v).length + m, by omega, ?_⟩
        unfold occursAt
        rw [← hdrop m]
        exact hpre
      | none => rw [h2] at h; exact absurd h (by simp)

/-- If the literal heading prefix `"## " ++ v` occurs nowhere in the
document, every attempt of the changelog pattern fails. -/
theorem clMatchAt_none_of_no_heading {v doc : List Char}
    (hno : ∀ i, i < doc.length → occursAt (hh ++ v) doc i = false) :
    ∀ j, clMatchAt v doc j = none := by
  intro j
  have hx : (hh ++ v).isPrefixOf (doc.drop j) = false := by
    by_cases hj : j < doc.length
    · exact hno j hj
    · have h1 : occursAt ('#' :: (('#' :: ' ' :: []) ++ v)) doc j = false :=
        occursAt_cons_false_of_le (by omega)
      have h2 : hh ++ v = '#' :: (('#' :: ' ' :: []) ++ v) := rfl
      unfold occursAt at h1
      rw [h2]
      exact h1
  simp [clMatchAt, hx]

/-! ### Claim theorems -/

/-- C1 (counterexample): the claim fails as stated.  In the document
`"## 2.0.0\nA\n## 1.0.0\nB"` the heading `## 1.0.0` is the last `## `
heading, and the claim demanded extraction of `"B"` with `found = true`;
the code's pattern `## {v}[^\n]*(.*?)## ` needs a further `"## "` after
the captured body, so the search fails and extraction returns the empty
string with `found = false`. -/
theorem C1_counterexample :
    (get_changelog_release_notes [] (("1.0.0").data) (("## 2.0.0\nA\n## 1.0.0\nB").data)).1 =
        ([], false) ∧
      (get_changelog_release_notes [] (("1.0.0").data) (("## 2.0.0\nA\n## 1.0.0\nB").data)).1 ≠
        ((("B").data), true) := by
  exact ⟨by decide, by decide⟩

/-- C1 (amended): end of document is not a valid terminator.  On
`"## 2.0.0\nA\n## 1.0.0\nB"`, extracting `"2.0.0"` yields `"A"`
(trimmed) with `found = true`, but extracting `"1.0.0"` (whose section
is last) yields the empty string with `found = false`; in general,
extraction reports `found = true` only when the document contains the
literal heading prefix and a further `"## "` marker at or after the end
of that prefix. -/
theorem C1_last_heading :
    (get_changelog_release_notes [] (("2.0.0").data) (("## 2.0.0\nA\n## 1.0.0\nB").data)).1 =
        (('A' :: []), true) ∧
      (get_changelog_release_notes [] (("1.0.0").data) (("## 2.0.0\nA\n## 1.0.0\nB").data)).1 =
        ([], false) ∧
      ∀ url v doc : List Char, ((get_changelog_release_notes url v doc).1).2 = true →
        ∃ i m, occursAt (hh ++ v) doc i = true ∧ i + (hh ++ v).length ≤ m ∧
          occursAt hh doc m = true := by
  refine ⟨by decide, by decide, ?_⟩
  intro url v doc h
  unfold get_changelog_release_notes at h
  cases hsm : searchMatch (clMatchAt v doc) (doc.length + 1) 0 with
  | none => rw [hsm] at h; simp at h
  | some g =>
    obtain ⟨i, -, hmi⟩ := searchMatch_spec _ _ _ _ hsm
    obtain ⟨hocc, m, hm1, hm2⟩ := clMatchAt_occurs hmi
    exact ⟨i, m, hocc, hm1, hm2⟩

/-- C1 (witness): the general conjunct applied where extraction does
succeed, on the spec's example document with version `"2.0.0"`. -/
theorem C1_last_heading_witness :
    ∃ i m, occursAt (hh ++ ("2.0.0").data) (("## 2.0.0\nA\n## 1.0.0\nB").data) i = true ∧
      i + (hh ++ ("2.0.0").data).length ≤ m ∧
      occursAt hh (("## 2.0.0\nA\n## 1.0.0\nB").data) m = true :=
  C1_last_heading.2.2 [] ("2.0.0").data ("## 2.0.0\nA\n## 1.0.0\nB").data (by decide)

/-- C4: the version identifier is matched literally (`re.escape`):
whenever extraction reports `found = true`, the document contains the
literal text `"## " ++ v`; in particular `"1.2.3"` does not match the
heading `## 1x2x3` (where `.` as a wildcard would match), yet does match
the literal heading `## 1.2.3`. -/
theorem C4_literal_version :
    (∀ url v doc : List Char, ((get_changelog_release_notes url v doc).1).2 = true →
        ∃ i, occursAt (hh ++ v) doc i = true) ∧
      (get_changelog_release_notes [] (("1.2.3").data) (("## 1x2x3\nA\n## 0\n").data)).1 =
        ([], false) ∧
      (get_changelog_release_notes [] (("1.2.3").data) (("## 1.2.3\nA\n## 0\n").data)).1 =
        (('A' :: []), true) := by
  refine ⟨?_, by decide, by decide⟩
  intro url v doc h
  unfold get_changelog_release_notes at h
  cases hsm : searchMatch (clMatchAt v doc) (doc.length + 1) 0 with
  | none => rw [hsm] at h; simp at h
  | some g =>
    obtain ⟨i, -, hmi⟩ := searchMatch_spec _ _ _ _ hsm
    exact ⟨i, (clMatchAt_occurs hmi).1⟩

/-- C4 (witness): the general conjunct applied where extraction
succeeds, exhibiting the literal occurrence of `"## 1.2.3"`. -/
theorem C4_literal_version_witness :
    ∃ i, occursAt (hh ++ ("1.2.3").data) (("## 1.2.3\nA\n## 0\n").data) i = true :=
  C4_literal_version.1 [] ("1.2.3").data ("## 1.2.3\nA\n## 0\n").data (by decide)

/-- C9: when no heading matches the requested version, extraction
returns `found = false` with empty text and the warning message that
names the comparison URL (the URL occurs inside the message). -/
theorem C9_no_match (url v doc : List Char)
    (hno : ∀ i, i < doc.length → occursAt (hh ++ v) doc i = false) :
    get_changelog_release_notes url v doc = (([], false), some (changelogWarnMsg url)) ∧
      ∃ a b, changelogWarnMsg url = a ++ url ++ b := by
  have hsm := searchMatch_eq_none (clMatchAt v doc) (doc.length + 1) 0
    (fun j _ _ => clMatchAt_none_of_no_heading hno j)
  constructor
  · unfold get_changelog_release_notes
    rw [hsm]
  · exact ⟨changelogWarnPre, ('.' :: []), rfl⟩

/-- C9 (witness): a document with no heading at all for the requested
version. -/
theorem C9_no_match_witness :
    get_changelog_release_notes (("https://u").data) (("9.9.9").data) (("hello").data) =
        (([], false), some (changelogWarnMsg (("https://u").data))) ∧
      ∃ a b, changelogWarnMsg (("https://u").data) = a ++ (("https://u").data) ++ b :=
  C9_no_match ("https://u").data ("9.9.9").data ("hello").data (by decide)

/-- C2 (counterexample): the claim fails as stated.  The body below
contains a line of the exact form `**Full Changelog**: <url>` (with
`<url> = "https://a"`), yet parsing returns the empty string with no
match, because text follows the line and `$` without `re.MULTILINE` only
matches at the end of the body: the claim demanded `"https://a"`. -/
theorem C2_counterexample :
    ("before\n**Full Changelog**: https://a\nafter").data =
        ("before\n").data ++ (fcLit ++ (("https://a").data ++ ("\nafter").data)) ∧
      get_release_notes_url (("before\n**Full Changelog**: https://a\nafter").data) =
        ([], false) := by
  constructor
  · decide
  · decide

/-- C2 (amended): comparison-link parsing returns `<url>` (the rest of
the line, greedy to end of line) for a body containing the line
`**Full Changelog**: <url>` provided that line is terminated by the end
of the body (at most one trailing newline follows the url) and the
literal label does not occur earlier in the body. -/
theorem C2_link_parsing (p u tl : List Char)
    (htl : tl = [] ∨ tl = ('\n' :: []))
    (hp : ∀ i, i < p.length → occursAt fcLit (p ++ (fcLit ++ (u ++ tl))) i = false)
    (hu : '\n' ∉ u) :
    get_release_notes_url (p ++ (fcLit ++ (u ++ tl))) = (u, true) :=
  get_release_notes_url_of_final_line p u tl htl hp hu

/-- C2 (witness): the spec's own example body
`"...\n**Full Changelog**: https://example.com/compare/a...b\n"` parses
to exactly `https://example.com/compare/a...b`. -/
theorem C2_link_parsing_witness :
    get_release_notes_url
        (("...\n").data ++ (fcLit ++ (("https://example.com/compare/a...b").data ++ ('\n' :: [])))) =
      (("https://example.com/compare/a...b").data, true) :=
  C2_link_parsing ("...\n").data ("https://example.com/compare/a...b").data ('\n' :: [])
    (Or.inr rfl) (by decide) (by decide)

/-- C7: composition is the pure concatenation
`changelogSection + "\n\n" + "**Full Changelog**: " + comparisonUrl`,
with no validation; in particular composing `"Fixed bug"` with
`"https://x"` yields exactly `"Fixed bug\n\n**Full Changelog**: https://x"`. -/
theorem C7_compose_concat :
    (∀ s u : List Char, create_release_notes_body s u =
        s ++ (("\n\n").data ++ ("**Full Changelog**: ").data) ++ u) ∧
      create_release_notes_body (("Fixed bug").data) (("https://x").data) =
        ("Fixed bug\n\n**Full Changelog**: https://x").data := by
  constructor
  · intro s u
    rfl
  · decide

/-- C8: escaping for transport replaces every literal newline with the
two-character sequence backslash-`n` and leaves other characters alone,
so the escaped form of any composed release-notes string contains no
literal newline. -/
theorem C8_escape_newlines :
    (∀ (c : Char) (cs : List Char), c ≠ '\n' →
        escapeNewlines (c :: cs) = c :: escapeNewlines cs) ∧
      (∀ cs : List Char, escapeNewlines ('\n' :: cs) = '\\' :: 'n' :: escapeNewlines cs) ∧
      ∀ s u : List Char, '\n' ∉ escapeNewlines (create_release_notes_body s u) := by
  refine ⟨fun c cs hc => by simp [escapeNewlines, hc], fun cs => by simp [escapeNewlines], ?_⟩
  intro s u
  generalize create_release_notes_body s u = w
  induction w with
  | nil => simp [escapeNewlines]
  | cons c cs ih =>
    by_cases hc : c = '\n'
    · subst hc
      simpa [escapeNewlines] using ih
    · simp only [escapeNewlines, if_neg hc, List.cons_append, List.nil_append,
        List.mem_cons]
      rintro (rfl | hmem)
      · exact hc rfl
      · exact ih hmem

/-- C8 (witness): the first conjunct applied at a concrete non-newline
character. -/
theorem C8_escape_newlines_witness :
    escapeNewlines ('a' :: '\n' :: []) = 'a' :: escapeNewlines ('\n' :: []) :=
  C8_escape_newlines.1 'a' ('\n' :: []) (by decide)

/-- C10: round-trip of composer and parser.  If the section text
contains no occurrence of the `**Full Changelog**: ` label and the url
contains no newline, then parsing the composed notes returns exactly the
url. -/
theorem C10_roundtrip (s u : List Char)
    (hs : ∀ i, i < s.length → occursAt fcLit s i = false)
    (hu : '\n' ∉ u) :
    get_release_notes_url (create_release_notes_body s u) = (u, true) := by
  have hbodyEq : create_release_notes_body s u =
      (s ++ ('\n' :: '\n' :: [])) ++ (fcLit ++ (u ++ [])) := by
    unfold create_release_notes_body
    rw [sepLit_eq]
    simp [List.append_assoc]
  rw [hbodyEq]
  exact get_release_notes_url_of_final_line (s ++ ('\n' :: '\n' :: [])) u []
    (Or.inl rfl) (no_fcLit_before_label s u hs) hu

/-- C10 (witness): round-trip at the spec's example inputs. -/
theorem C10_roundtrip_witness :
    get_release_notes_url (create_release_notes_body (("Fixed bug").data) (("https://x").data)) =
      (("https://x").data, true) :=
  C10_roundtrip ("Fixed bug").data ("https://x").data (by decide) (by decide)

/-- C3 (counterexample): the claim fails as stated.  A non-success
response from the endpoint arrives as a zero-exit `curl` run (the
subprocess succeeds) whose JSON payload has no `body` field; the claim
demanded a warning and an empty body, but `parsed_json["body"]` raises
an uncaught `KeyError` instead. -/
theorem C3_counterexample :
    generate_github_release_notes_body
        (SubprocessOutcome.completed GithubResponse.withoutBody) =
        Except.error PyExn.keyError ∧
      generate_github_release_notes_body
          (SubprocessOutcome.completed GithubResponse.withoutBody) ≠
        Except.ok ([], true) := by
  exact ⟨rfl, by simp [generate_github_release_notes_body]⟩

/-- C3 (amended): only transport failures (a non-zero `curl` exit
status, raising `subprocess.CalledProcessError`) are caught, warned
about, and converted to an empty body; a successful request whose
response carries a `body` field returns that field verbatim; but a
zero-exit response without a `body` field (as in an HTTP error payload)
or with non-JSON output raises an uncaught exception rather than
failing soft. -/
theorem C3_fetch_fail_soft :
    generate_github_release_notes_body SubprocessOutcome.calledProcessError =
        Except.ok ([], true) ∧
      (∀ b : List Char, generate_github_release_notes_body
          (SubprocessOutcome.completed (GithubResponse.withBody b)) = Except.ok (b, false)) ∧
      generate_github_release_notes_body
          (SubprocessOutcome.completed GithubResponse.withoutBody) =
        Except.error PyExn.keyError ∧
      generate_github_release_notes_body
          (SubprocessOutcome.completed GithubResponse.malformed) =
        Except.error PyExn.jsonDecodeError :=
  ⟨rfl, fun _ => rfl, rfl, rfl⟩

/-- C5: the artifact-count check only warns (`warned` holds exactly when
the count differs from two) and never blocks the gate: upload and
tag-push happen exactly when the operator answers the string `"y"`, for
every artifact count, and any other answer raises, aborting without
uploading. -/
theorem C5_verification_gate (n : Nat) (c : List Char) :
    ((verify_build n c).warned = true ↔ n ≠ 2) ∧
      ((verify_build n c).uploaded = true ↔ c = ('y' :: [])) ∧
      ((verify_build n c).pushed = true ↔ c = ('y' :: [])) ∧
      ((verify_build n c).raised = true ↔ c ≠ ('y' :: [])) := by
  by_cases hc : c = ('y' :: [])
  · subst hc
    simp [verify_build]
  · simp [verify_build, hc]

/-- C5 (witness): a three-file dist folder warns but the gate still
uploads on `"y"`; the answer `"n"` aborts. -/
theorem C5_verification_gate_witness :
    (verify_build 3 ('n' :: [])).warned = true ∧
      (verify_build 3 ('n' :: [])).raised = true ∧
      (verify_build 3 ('y' :: [])).uploaded = true :=
  ⟨(C5_verification_gate 3 ('n' :: [])).1.mpr (by decide),
    (C5_verification_gate 3 ('n' :: [])).2.2.2.mpr (by decide),
    (C5_verification_gate 3 ('y' :: [])).2.1.mpr rfl⟩

/-- C6: with the token environment variable absent, `main` prints the
two banner lines and the diagnostic and exits with status 1; the trace
contains no git, build, upload, or network operation. -/
theorem C6_missing_token (inputs distFiles : List (List Char)) :
    mainTrace none inputs distFiles =
        (Action.printMsg startingMsg :: Action.printMsg checkingMsg ::
          Action.printMsg tokenMissingMsg :: Action.exitCode 1 :: []) ∧
      ∀ a ∈ mainTrace none inputs distFiles, isExternalOp a = false := by
  have h : mainTrace none inputs distFiles =
      (Action.printMsg startingMsg :: Action.printMsg checkingMsg ::
        Action.printMsg tokenMissingMsg :: Action.exitCode 1 :: []) := by
    simp [mainTrace]
  refine ⟨h, ?_⟩
  intro a ha
  rw [h] at ha
  simp only [List.mem_cons, List.not_mem_nil, or_false] at ha
  rcases ha with rfl | rfl | rfl | rfl <;> rfl

/-- C6 (witness): the trace membership hypothesis discharged at the
first printed banner line. -/
theorem C6_missing_token_witness :
    (Action.printMsg startingMsg ∈ mainTrace none [] []) ∧
      isExternalOp (Action.printMsg startingMsg) = false :=
  ⟨by decide, (C6_missing_token [] []).2 (Action.printMsg startingMsg) (by decide)⟩

end Release
